import Mathlib

/-!
# Verification of the email-manager repository

Shallow embedding of the email-manager toolkit (Gmail invoice forwarder,
fetch-pipeline junk-attachment filter, sync-state store) in Lean 4,
with theorems settling the frozen claims about its specification.

Strings from the JavaScript/TypeScript source are modelled as Lean
`String`s; the character-level predicates (regular-expression tests,
prefix/suffix/substring tests) are implemented on `List Char` obtained
via `String.data` to keep every definition kernel-executable.
JavaScript `toLowerCase()` is modelled by ASCII lowercasing
(`Char.toLower`); every pattern in the source is ASCII, so the two
agree on all inputs relevant to the patterns.
-/

/-! ## String helpers (models of the JS string operations used by the source) -/

/-- ASCII lowercasing of a string, as a character list
(model of JavaScript `s.toLowerCase()` for the ASCII patterns used here). -/
def lowerList (s : String) : List Char :=
  s.data.map Char.toLower

/-- `s` ends with the literal suffix `suf` (model of a `...$`-anchored regex tail
or of JS `endsWith`). -/
def endsW (s : List Char) (suf : String) : Bool :=
  suf.data.isSuffixOf s

/-- `s` starts with the literal prefix `pre` (model of a `^...`-anchored regex head
or of JS `startsWith`). -/
def startsW (s : List Char) (pre : String) : Bool :=
  pre.data.isPrefixOf s

/-- `pat` occurs as a contiguous substring of `s` (model of an unanchored regex
literal such as `/cidForSAP/`). -/
def containsL (s : List Char) (pat : String) : Bool :=
  s.tails.any (fun t => pat.data.isPrefixOf t)

/-- Drop the last `n` characters. -/
def dropRightL (l : List Char) (n : Nat) : List Char :=
  l.take (l.length - n)

/-! ## Junk-attachment filter (fetch pipeline, `isJunkAttachment` in the source)

Embedded from the fetch pipeline source reproduced in `ARCHITECTURE.md`
(`JUNK_PATTERNS`, `SIZE_DEPENDENT_PATTERNS`, `isJunkAttachment`,
`isRelevantMimeType`, and the `relevantAttachments` filter). -/

/-- `/\.(png|gif|jpg|jpeg)$/i.test(filename)` -/
def hasImageExt (filename : String) : Bool :=
  let fl := lowerList filename
  [".png", ".gif", ".jpg", ".jpeg"].any (fun e => endsW fl e)

/-- `/^icon(_\d+)?\.(png|jpg|gif)$/i.test(filename)`: the whole (lowercased)
name is `icon`, optionally followed by `_` and one or more digits, then a dot
and one of the three extensions. -/
def matchIconPattern (fl : List Char) : Bool :=
  ["png", "jpg", "gif"].any (fun e =>
    endsW fl ("." ++ e) &&
    (let stem := dropRightL fl 4
     stem = "icon".data ||
       (startsW stem "icon_" && decide ((stem.drop 5).length > 0) &&
        (stem.drop 5).all Char.isDigit)))

/-- `/^image\d{3}\.(png|jpg|jpeg|gif)$/i.test(filename)`: the whole (lowercased)
name is `image`, exactly three digits, a dot, and one of the four extensions. -/
def matchImageSeqPattern (fl : List Char) : Bool :=
  ["png", "jpg", "jpeg", "gif"].any (fun e =>
    endsW fl ("." ++ e) &&
    (let stem := dropRightL fl (e.length + 1)
     decide (stem.length = 8) && startsW stem "image" &&
       (stem.drop 5).all Char.isDigit))

/-- The `JUNK_PATTERNS` array: a filename matches the fixed junk pattern set. -/
def matchJunkPatterns (filename : String) : Bool :=
  let fl := lowerList filename
  matchIconPattern fl ||
  startsW fl "atl-generated-" ||
  startsW fl "prestashop-logo" ||
  containsL fl "cidforsap" ||
  (fl = "logo.png".data || fl = "logo.jpg".data || fl = "logo.gif".data) ||
  (fl = "spacer.gif".data || fl = "spacer.png".data) ||
  (fl = "pixel.gif".data || fl = "pixel.png".data) ||
  (fl = "tracking.gif".data || fl = "tracking.png".data) ||
  startsW fl "signature"

/-- The `SIZE_DEPENDENT_PATTERNS` array: `imageNNN.ext` three-digit names
or names starting with `embedded_`. -/
def matchSizeDependentPatterns (filename : String) : Bool :=
  let fl := lowerList filename
  matchImageSeqPattern fl || startsW fl "embedded_"

/-- `isJunkAttachment(filename, size)` from the fetch pipeline: the three
size-conditioned rules, applied in order, first match wins. -/
def isJunkAttachment (filename : String) (size : Nat) : Bool :=
  if decide (size < 500) && hasImageExt filename then true
  else if decide (size < 50 * 1024) && matchJunkPatterns filename then true
  else if decide (size < 10 * 1024) && matchSizeDependentPatterns filename then true
  else false

/-- `AttachmentInfo` from `types.ts` (the `inlineData` payload field is kept
as an optional string). -/
structure AttachmentInfo where
  id : String
  filename : String
  mimeType : String
  size : Nat
  inlineData : Option String := none
deriving DecidableEq

/-- The `relevant` MIME-type list of `isRelevantMimeType`. -/
def RELEVANT_MIME_TYPES : List String :=
  ["application/pdf",
   "application/msword",
   "application/vnd.openxmlformats-officedocument",
   "application/vnd.ms-excel",
   "application/vnd.ms-powerpoint",
   "image/png",
   "image/jpeg",
   "image/tiff",
   "image/gif",
   "image/webp",
   "image/bmp",
   "text/plain",
   "text/csv",
   "text/html",
   "application/zip",
   "application/x-zip-compressed",
   "application/json",
   "application/xml"]

/-- `isRelevantMimeType(mimeType)`: some entry of the relevant list occurs in
the lowercased MIME type (JS `includes` is substring containment; the list
entries are already lowercase, so lowercasing them is the identity). -/
def isRelevantMimeType (mimeType : String) : Bool :=
  RELEVANT_MIME_TYPES.any (fun r => containsL (lowerList mimeType) r)

/-- The save-step filter of the fetch pipeline:
`message.attachments.filter(att => att.size >= 1000 && isRelevantMimeType(att.mimeType) && !isJunkAttachment(att.filename, att.size))`. -/
def relevantAttachments (atts : List AttachmentInfo) : List AttachmentInfo :=
  atts.filter (fun att =>
    decide (att.size ≥ 1000) && isRelevantMimeType att.mimeType &&
      !isJunkAttachment att.filename att.size)

/-! ## Bytes, codepoints, UTF-8, and base64 (Node `Buffer` semantics)

The invoice forwarder manipulates the raw RFC 2822 message through Node
buffers: `Buffer.from(raw, 'base64').toString('utf8')` decodes the raw
bytes into a JS string, and `Buffer.from(forwardMessage).toString('base64')`
re-encodes the composed forward.  Bytes and Unicode codepoints are both
modelled as `List Nat`: a byte list has entries `< 256`, a codepoint list
carries Unicode scalar values.  `toString('utf8')` is the WHATWG UTF-8
decoder (invalid sequences become U+FFFD), and `Buffer.from(string)` is the
UTF-8 encoder. -/

/-- Codepoints of a Lean string literal (used to embed the JS string
literals of the source at the codepoint level). -/
def strCps (s : String) : List Nat :=
  s.data.map Char.toNat

/-- UTF-8 encoding of one codepoint (`Buffer.from(str)` per character).
Unicode scalar values get their standard 1-4 byte encoding; a value that is
not a scalar value (lone surrogate or out of range, which Node replaces)
encodes as the replacement character bytes `EF BF BD`. -/
def utf8EncodeChar (c : Nat) : List Nat :=
  if c < 0x80 then [c]
  else if c < 0x800 then [0xC0 + c / 64, 0x80 + c % 64]
  else if 0xD800 ≤ c ∧ c < 0xE000 then [0xEF, 0xBF, 0xBD]
  else if c < 0x10000 then [0xE0 + c / 4096, 0x80 + (c / 64) % 64, 0x80 + c % 64]
  else if c < 0x110000 then
    [0xF0 + c / 262144, 0x80 + (c / 4096) % 64, 0x80 + (c / 64) % 64, 0x80 + c % 64]
  else [0xEF, 0xBF, 0xBD]

/-- UTF-8 encoding of a codepoint sequence. -/
def utf8Encode (cps : List Nat) : List Nat :=
  cps.flatMap utf8EncodeChar

/-- Is `b` a UTF-8 continuation byte (`80..BF`)? -/
def isCont (b : Nat) : Bool :=
  0x80 ≤ b && b < 0xC0

/-- WHATWG UTF-8 decoder, fuel-indexed for structural recursion: every step
consumes at least one byte, so `fuel = length` suffices. -/
def utf8DecodeAux : Nat → List Nat → List Nat
  | _, [] => []
  | 0, _ :: _ => []
  | fuel + 1, b :: rest =>
    if b < 0x80 then b :: utf8DecodeAux fuel rest
    else if b < 0xC2 then 0xFFFD :: utf8DecodeAux fuel rest
    else if b < 0xE0 then
      match rest with
      | [] => [0xFFFD]
      | b2 :: rest2 =>
        if isCont b2 then ((b - 0xC0) * 64 + (b2 - 0x80)) :: utf8DecodeAux fuel rest2
        else 0xFFFD :: utf8DecodeAux fuel (b2 :: rest2)
    else if b < 0xF0 then
      match rest with
      | [] => [0xFFFD]
      | b2 :: rest2 =>
        if (if b = 0xE0 then 0xA0 else 0x80) ≤ b2 &&
           b2 < (if b = 0xED then 0xA0 else 0xC0) then
          match rest2 with
          | [] => [0xFFFD]
          | b3 :: rest3 =>
            if isCont b3 then
              ((b - 0xE0) * 4096 + (b2 - 0x80) * 64 + (b3 - 0x80)) ::
                utf8DecodeAux fuel rest3
            else 0xFFFD :: utf8DecodeAux fuel (b3 :: rest3)
        else 0xFFFD :: utf8DecodeAux fuel (b2 :: rest2)
    else if b < 0xF5 then
      match rest with
      | [] => [0xFFFD]
      | b2 :: rest2 =>
        if (if b = 0xF0 then 0x90 else 0x80) ≤ b2 &&
           b2 < (if b = 0xF4 then 0x90 else 0xC0) then
          match rest2 with
          | [] => [0xFFFD]
          | b3 :: rest3 =>
            if isCont b3 then
              match rest3 with
              | [] => [0xFFFD]
              | b4 :: rest4 =>
                if isCont b4 then
                  ((b - 0xF0) * 262144 + (b2 - 0x80) * 4096 +
                    (b3 - 0x80) * 64 + (b4 - 0x80)) :: utf8DecodeAux fuel rest4
                else 0xFFFD :: utf8DecodeAux fuel (b4 :: rest4)
            else 0xFFFD :: utf8DecodeAux fuel (b3 :: rest3)
        else 0xFFFD :: utf8DecodeAux fuel (b2 :: rest2)
      else 0xFFFD :: utf8DecodeAux fuel rest

/-- WHATWG UTF-8 decoder (Node `buffer.toString('utf8')`): bytes to
codepoints, each maximal invalid subsequence replaced by U+FFFD. -/
def utf8Decode (bytes : List Nat) : List Nat :=
  utf8DecodeAux bytes.length bytes

/-- Standard base64 alphabet, as a character code: sextet value to `A-Za-z0-9+/`. -/
def b64char (v : Nat) : Nat :=
  if v < 26 then 65 + v
  else if v < 52 then 97 + (v - 26)
  else if v < 62 then 48 + (v - 52)
  else if v = 62 then 43
  else 47

/-- Standard base64 encoding with `=` padding (`Buffer.toString('base64')`),
producing character codes. -/
def b64encode : List Nat → List Nat
  | [] => []
  | [a] => [b64char (a / 4), b64char (a % 4 * 16), 61, 61]
  | [a, b] => [b64char (a / 4), b64char (a % 4 * 16 + b / 16), b64char (b % 16 * 4), 61]
  | a :: b :: c :: rest =>
    b64char (a / 4) :: b64char (a % 4 * 16 + b / 16) ::
      b64char (b % 16 * 4 + c / 64) :: b64char (c % 64) :: b64encode rest

/-- `.replace(/\+/g, '-')` on a character-code list. -/
def replacePlus (l : List Nat) : List Nat :=
  l.map (fun c => if c = 43 then 45 else c)

/-- `.replace(/\//g, '_')` on a character-code list. -/
def replaceSlash (l : List Nat) : List Nat :=
  l.map (fun c => if c = 47 then 95 else c)

/-- `.replace(/=+$/, '')`: strip the trailing run of `=` characters. -/
def stripTrailingEq (l : List Nat) : List Nat :=
  (l.reverse.dropWhile (fun c => c = 61)).reverse

/-- The base64url encoding performed by `forwardEmail`:
standard base64, then `+` to `-`, `/` to `_`, and trailing `=` stripped. -/
def b64urlEncode (bytes : List Nat) : List Nat :=
  stripTrailingEq (replaceSlash (replacePlus (b64encode bytes)))

/-- Inverse of the base64url alphabet (character code to sextet value). -/
def b64inv (c : Nat) : Nat :=
  if 65 ≤ c ∧ c ≤ 90 then c - 65
  else if 97 ≤ c ∧ c ≤ 122 then c - 71
  else if 48 ≤ c ∧ c ≤ 57 then c + 4
  else if c = 45 then 62
  else if c = 95 then 63
  else 0

/-- Base64url decoding without padding (the Gmail API's reading of the
`raw` field of a send request): groups of four characters yield three
bytes; a final group of two or three characters yields one or two bytes. -/
def b64urlDecode : List Nat → List Nat
  | [] => []
  | [_] => []
  | [c1, c2] => [b64inv c1 * 4 + b64inv c2 / 16]
  | [c1, c2, c3] =>
    [b64inv c1 * 4 + b64inv c2 / 16, b64inv c2 % 16 * 16 + b64inv c3 / 4]
  | c1 :: c2 :: c3 :: c4 :: rest =>
    (b64inv c1 * 4 + b64inv c2 / 16) :: (b64inv c2 % 16 * 16 + b64inv c3 / 4) ::
      (b64inv c3 % 4 * 64 + b64inv c4) :: b64urlDecode rest

/-! ## Invoice forwarder data model (`forward-invoices.mjs`)

The Gmail message payload is a tree of MIME parts; nesting is modelled with
a pair of mutually inductive types so that the tree walk of
`hasPdfAttachment` is structural (and kernel-executable). -/

mutual
/-- One node of the `message.payload.parts` tree: its `filename` field
(Gmail sends `""` for non-attachment parts; a missing field is modelled
as `""`, which is equally falsy in the source's truthiness test) and its
`parts` children (a missing `parts` field is the empty list). -/
inductive MimePart where
  | node (filename : String) (parts : MimePartList)

/-- A list of sibling MIME parts. -/
inductive MimePartList where
  | nil
  | cons (p : MimePart) (rest : MimePartList)
end

/-- The filename of a MIME part. -/
def MimePart.filenameOf : MimePart → String
  | .node f _ => f

/-- `part.filename.toLowerCase().endsWith('.pdf')`. -/
def isPdfName (f : String) : Bool :=
  endsW (lowerList f) ".pdf"

mutual
/-- The body of `checkParts`' loop for one part: its own filename test
(`part.filename && part.filename.toLowerCase().endsWith('.pdf')`) or a
recursive check of `part.parts`. -/
def MimePart.selfOrChildHasPdf : MimePart → Bool
  | .node f ps => (decide (f ≠ "") && isPdfName f) || checkParts ps

/-- `checkParts(partsList)` from `hasPdfAttachment`: some part of the list,
at any depth, has a `.pdf` filename. -/
def checkParts : MimePartList → Bool
  | .nil => false
  | .cons p rest => p.selfOrChildHasPdf || checkParts rest
end

mutual
/-- All nodes of a part's subtree, the part itself included
(used to state "no part anywhere in the tree has a PDF filename"). -/
def MimePart.subtreeNodes : MimePart → List MimePart
  | .node f ps => .node f ps :: partsNodes ps

/-- All nodes of the subtrees of a part list. -/
def partsNodes : MimePartList → List MimePart
  | .nil => []
  | .cons p rest => p.subtreeNodes ++ partsNodes rest
end

/-- `headers.find(h => h.name.toLowerCase() === name.toLowerCase())?.value || ''`. -/
def getHeader (headers : List (String × String)) (name : String) : String :=
  match headers.find? (fun h => lowerList h.1 == lowerList name) with
  | some h => h.2
  | none => ""

/-- The `message.payload` object: header array and MIME part tree. -/
structure Payload where
  headers : List (String × String)
  parts : MimePartList

/-- A Gmail message as returned by a `format: 'full'` fetch. -/
structure GmailMessage where
  id : String
  threadId : String
  internalDate : Nat
  snippet : String
  payload : Option Payload

/-- `message.payload?.parts || []`: the message's MIME part tree. -/
def messageParts (m : GmailMessage) : MimePartList :=
  match m.payload with
  | some p => p.parts
  | none => .nil

/-- `hasPdfAttachment(message)`: walk `message.payload?.parts || []`. -/
def hasPdfAttachment (m : GmailMessage) : Bool :=
  checkParts (messageParts m)

/-- Civil date (year, month, day) of a day count since 1970-01-01,
proleptic Gregorian (the standard era-based algorithm used by
`Date.prototype.toISOString`). -/
def civilFromDays (days : Nat) : Nat × Nat × Nat :=
  let z := days + 719468
  let era := z / 146097
  let doe := z % 146097
  let yoe := (doe - doe / 1460 + doe / 36524 - doe / 146096) / 365
  let doy := doe - (365 * yoe + yoe / 4 - yoe / 100)
  let mp := (5 * doy + 2) / 153
  let d := doy - (153 * mp + 2) / 5 + 1
  let m := if mp < 10 then mp + 3 else mp - 9
  (yoe + era * 400 + (if m ≤ 2 then 1 else 0), m, d)

/-- Zero-pad a number to two digits. -/
def pad2 (n : Nat) : String :=
  if n < 10 then "0" ++ toString n else toString n

/-- Zero-pad a number to four digits. -/
def pad4 (n : Nat) : String :=
  if n < 10 then "000" ++ toString n
  else if n < 100 then "00" ++ toString n
  else if n < 1000 then "0" ++ toString n
  else toString n

/-- `formatDate(timestamp)`:
`new Date(parseInt(timestamp)).toISOString().split('T')[0]`, i.e. the
`YYYY-MM-DD` date of an epoch-milliseconds timestamp (timestamps before
1970 do not occur and are out of scope of the `Nat` model). -/
def formatDate (timestamp : Nat) : String :=
  match civilFromDays (timestamp / 86400000) with
  | (y, m, d) => pad4 y ++ "-" ++ pad2 m ++ "-" ++ pad2 d

/-- The display record built by `extractEmailInfo` (the source's `from`
field is called `fromAddr`, `from` being reserved in Lean). -/
structure EmailInfo where
  id : String
  threadId : String
  subject : String
  fromAddr : String
  date : String
  snippet : String
deriving DecidableEq

/-- `extractEmailInfo(message)`. -/
def extractEmailInfo (m : GmailMessage) : EmailInfo :=
  let headers := match m.payload with
    | some p => p.headers
    | none => []
  { id := m.id
    threadId := m.threadId
    subject := getHeader headers "subject"
    fromAddr := getHeader headers "from"
    date := formatDate m.internalDate
    snippet := m.snippet }

/-- `INVOICE_KEYWORDS` from `forward-invoices.mjs`. -/
def INVOICE_KEYWORDS : List String :=
  ["rechnung", "invoice", "billing", "abrechnung", "gutschrift",
   "faktura", "zahlungsaufforderung", "payment", "bestellung"]

/-- `since.replace(dash-regex-global, '/')`: every `-` becomes `/`. -/
def replaceDashSlash (s : String) : String :=
  String.mk (s.data.map (fun c => if c = '-' then '/' else c))

/-- `buildSearchQuery(since)` from `forward-invoices.mjs`. -/
def buildSearchQuery (since : String) : String :=
  let dateStr := replaceDashSlash since
  let keywordQuery := String.intercalate " OR " INVOICE_KEYWORDS
  "after:" ++ dateStr ++ " has:attachment (" ++ keywordQuery ++ ")"

/-- The fixed forwarding address `FORWARD_TO`. -/
def FORWARD_TO : String := "inbox@invoices.software-moling.com"

/-- The composite forward built by `forwardEmail`, at the codepoint level:
`['To: ...', 'Subject: Fwd: ...', 'Content-Type: message/rfc822', '', rawMessage].join('\n')`. -/
def forwardMessageCps (subject : String) (rawMessage : List Nat) : List Nat :=
  strCps ("To: " ++ FORWARD_TO) ++ [10] ++
    strCps "Subject: Fwd: " ++ strCps subject ++ [10] ++
    strCps "Content-Type: message/rfc822" ++ [10] ++ [10] ++ rawMessage

/-- The `raw` payload submitted to the send endpoint for an original message
with raw bytes `origBytes` and display subject `subject`: decode the raw
bytes as UTF-8, wrap, UTF-8-encode, base64url-encode. -/
def encodedMessageOf (subject : String) (origBytes : List Nat) : List Nat :=
  b64urlEncode (utf8Encode (forwardMessageCps subject (utf8Decode origBytes)))

/-! ## Execution model of the forwarder run

The Gmail API is an oracle: a `GmailService` fixes what every remote call
returns, `Except` capturing a thrown exception.  The observable behaviour
of a run (remote calls issued, file writes, console decisions, counters)
is accumulated explicitly.  Progress console lines (`[n/N] ...`,
`Subject: ...`) and emoji prefixes are elided; only the decision and error
lines that the claims reference are modelled. -/

/-- One audit-log entry pushed onto `forwardedLog`
(`{date, from, subject, id}`; `from` is called `fromAddr` in Lean). -/
structure LogEntry where
  date : String
  fromAddr : String
  subject : String
  id : String
deriving DecidableEq

/-- An observable effect of the run. -/
inductive Event where
  | listCall (query : String) (maxResults : Nat)
  | getFullCall (id : String)
  | getRawCall (id : String)
  | sendCall (encoded : List Nat)
  | fileWrite (log : List LogEntry)
deriving DecidableEq

/-- Is the event a send-endpoint call? -/
def Event.isSend : Event → Bool
  | .sendCall _ => true
  | _ => false

/-- Is the event a file write? -/
def Event.isFileWrite : Event → Bool
  | .fileWrite _ => true
  | _ => false

/-- The Gmail API oracle: what each remote call would return during the run.
`getRaw` models `messages.get({format: 'raw'})`: `.error e` is a thrown
exception with message `e`, `.ok none` a response without a `raw` field,
`.ok (some bytes)` a response whose `raw` field decodes to `bytes`.
`sendResult` models `messages.send` on a given encoded payload. -/
structure GmailService where
  listMessages : String → Nat → List String
  getFull : String → GmailMessage
  getRaw : String → Except String (Option (List Nat))
  sendResult : List Nat → Except String Unit

/-- `forwardEmail(gmail, messageId, emailInfo)`: raw fetch, decode, wrap,
encode, send, with the surrounding `try`/`catch` returning `false` and
logging `Forward failed: <error message>` on any exception (a missing
`raw` field throws `'No raw message data'` inside the `try`).
Returns (success, events issued, console error lines). -/
def forwardEmail (g : GmailService) (messageId : String) (info : EmailInfo) :
    Bool × List Event × List String :=
  match g.getRaw messageId with
  | .error e => (false, [.getRawCall messageId], ["Forward failed: " ++ e])
  | .ok none => (false, [.getRawCall messageId], ["Forward failed: No raw message data"])
  | .ok (some origBytes) =>
    let encoded := encodedMessageOf info.subject origBytes
    match g.sendResult encoded with
    | .error e => (false, [.getRawCall messageId, .sendCall encoded],
        ["Forward failed: " ++ e])
    | .ok _ => (true, [.getRawCall messageId, .sendCall encoded], [])

/-- Is the event a raw-format fetch? -/
def Event.isGetRaw : Event → Bool
  | .getRawCall _ => true
  | _ => false

/-- The outcome of the loop body of `main` for one message. -/
structure StepResult where
  events : List Event
  console : List String
  forwardedDelta : Nat
  skippedDelta : Nat
  logEntry : Option LogEntry
deriving DecidableEq

/-- The loop body of `main` for one candidate message id: full-format fetch,
`extractEmailInfo`, the `hasPdfAttachment` skip test, then the dry-run or
execute branch. -/
def processMessage (isDryRun : Bool) (g : GmailService) (msgId : String) : StepResult :=
  let fullMessage := g.getFull msgId
  let emailInfo := extractEmailInfo fullMessage
  if !hasPdfAttachment fullMessage then
    { events := [.getFullCall msgId]
      console := ["Skipped: No PDF attachment"]
      forwardedDelta := 0
      skippedDelta := 1
      logEntry := none }
  else if isDryRun then
    { events := [.getFullCall msgId]
      console := ["Would forward (dry run)"]
      forwardedDelta := 0
      skippedDelta := 0
      logEntry := some ⟨emailInfo.date, emailInfo.fromAddr, emailInfo.subject, emailInfo.id⟩ }
  else
    match forwardEmail g msgId emailInfo with
    | (true, evs, errs) =>
      { events := .getFullCall msgId :: evs
        console := errs ++ ["Forwarded"]
        forwardedDelta := 1
        skippedDelta := 0
        logEntry := some ⟨emailInfo.date, emailInfo.fromAddr, emailInfo.subject, emailInfo.id⟩ }
    | (false, evs, errs) =>
      { events := .getFullCall msgId :: evs
        console := errs
        forwardedDelta := 0
        skippedDelta := 1
        logEntry := none }

/-- The accumulated state of `main`'s processing loop. -/
structure LoopState where
  processed : Nat
  forwarded : Nat
  skipped : Nat
  forwardedLog : List LogEntry
  events : List Event
  console : List String
deriving DecidableEq

/-- The processing loop of `main` over the candidate message ids
(sequential; written head-first, accumulating each step's contribution
in front of the rest of the loop). -/
def runLoop (isDryRun : Bool) (g : GmailService) : List String → LoopState
  | [] => ⟨0, 0, 0, [], [], []⟩
  | msgId :: rest =>
    let r := processMessage isDryRun g msgId
    let st := runLoop isDryRun g rest
    ⟨st.processed + 1,
     r.forwardedDelta + st.forwarded,
     r.skippedDelta + st.skipped,
     r.logEntry.toList ++ st.forwardedLog,
     r.events ++ st.events,
     r.console ++ st.console⟩

/-- The observable outcome of one `main` run. -/
structure MainResult where
  query : String
  messages : List String
  loop : LoopState
  trace : List Event

/-- `main()` of `forward-invoices.mjs` as a function of the oracle and the
CLI arguments: build the query, list candidates (returning early when there
are none), run the loop, and afterwards write the timestamped
`forwarded-invoices-<now>.json` log file once iff `forwardedLog` is
non-empty. -/
def mainModel (isDryRun : Bool) (g : GmailService) (sinceDate : String)
    (maxResults : Nat) : MainResult :=
  let query := buildSearchQuery sinceDate
  let messages := g.listMessages query maxResults
  if messages.isEmpty then
    { query := query, messages := messages, loop := ⟨0, 0, 0, [], [], []⟩,
      trace := [.listCall query maxResults] }
  else
    let st := runLoop isDryRun g messages
    { query := query
      messages := messages
      loop := st
      trace := .listCall query maxResults :: st.events ++
        (if st.forwardedLog.length > 0 then [.fileWrite st.forwardedLog] else []) }

/-! ## Server model for the stage-1 search (claim C6)

The claim stipulates "a server model that honours this query": the Gmail
search endpoint returns exactly the messages satisfying the query's three
conjuncts — date lower bound, attachment presence, and the keyword
disjunction (a keyword matches when it occurs in the message's searchable
text, case-insensitively). -/

/-- A message as the search endpoint sees it. -/
structure ServerMessage where
  id : String
  text : String
  hasAttachment : Bool
  internalDate : Nat

/-- Keyword `k` occurs in the message's searchable text. -/
def mentionsKeyword (m : ServerMessage) (k : String) : Bool :=
  containsL (lowerList m.text) k

/-- The message satisfies the query built by `buildSearchQuery`:
after-date, has-attachment, and at least one invoice keyword. -/
def satisfiesQuery (cutoff : Nat) (m : ServerMessage) : Bool :=
  decide (cutoff < m.internalDate) && m.hasAttachment &&
    INVOICE_KEYWORDS.any (mentionsKeyword m)

/-- A server honouring the query returns exactly the satisfying messages. -/
def serverSearch (cutoff : Nat) (msgs : List ServerMessage) : List ServerMessage :=
  msgs.filter (satisfiesQuery cutoff)

/-! ## Extraction of the nested `message/rfc822` body (claim C2) -/

/-- Drop everything up to and including the `n`-th newline (byte 10):
`dropLines 4` positions after the blank line that follows the three
headers of the composite forward. -/
def dropLines : Nat → List Nat → List Nat
  | 0, l => l
  | _ + 1, [] => []
  | n + 1, b :: rest =>
    if b = 10 then dropLines n rest else dropLines (n + 1) rest

/-! ## Sync-state store (`src/sync-state.ts`)

`SyncStateManager` keeps whatever `JSON.parse` returned as its in-memory
state, without validation, so the state is modelled as a JSON value.
JavaScript property access and assignment are modelled with an `Except`
capturing the `TypeError`s thrown on `undefined`/`null` bases (and, in
strict mode, on assigning a property of a primitive).  JS semantics that no
claim depends on are collapsed and noted at the definition: `+=` on a
non-numeric field (NaN/concatenation) is collapsed to `null`, and
`Object.keys`/`Object.values` of a primitive (index keys of a string) to
the empty list. -/

/-- A JSON value. -/
inductive Json where
  | null
  | bool (b : Bool)
  | num (n : Int)
  | str (s : String)
  | arr (elems : List Json)
  | obj (fields : List (String × Json))

/-- Property lookup in a JS object literal (first binding wins; objects
built by this model never carry duplicate keys). -/
def lookupKey (fs : List (String × Json)) (k : String) : Option Json :=
  match fs.find? (fun f => f.1 == k) with
  | some f => some f.2
  | none => none

/-- Property assignment `o[k] = v` on a JS object: replace the binding in
place when present, append it otherwise. -/
def setKey : List (String × Json) → String → Json → List (String × Json)
  | [], k, v => [(k, v)]
  | (k', v') :: rest, k, v =>
    if k' == k then (k, v) :: rest else (k', v') :: setKey rest k v

/-- Object spread `{...a, ...b}`: `b`'s bindings override `a`'s. -/
def spreadObj (a b : List (String × Json)) : List (String × Json) :=
  b.foldl (fun acc kv => setKey acc kv.1 kv.2) a

/-- JS truthiness of a JSON value. -/
def jsTruthy : Json → Bool
  | .null => false
  | .bool b => b
  | .num n => decide (n ≠ 0)
  | .str s => decide (s ≠ "")
  | .arr _ => true
  | .obj _ => true

/-- What reading and parsing the state file can yield: the file is absent,
is not valid JSON, or parses to some JSON value. -/
inductive FileState where
  | absent
  | unparsable
  | parsed (j : Json)

/-- `DEFAULT_STATE = { accounts: {} }`. -/
def DEFAULT_STATE : Json := .obj [("accounts", .obj [])]

/-- `load()`: the default state when the file is absent or unparsable,
otherwise the parsed JSON value verbatim (`return JSON.parse(data)`). -/
def load : FileState → Json
  | .absent => DEFAULT_STATE
  | .unparsable => DEFAULT_STATE
  | .parsed j => j

/-- The state's `accounts` map, when the state is an object whose
`accounts` property is an object. -/
def accountsMapOf : Json → Option (List (String × Json))
  | .obj fs =>
    match lookupKey fs "accounts" with
    | some (.obj afs) => some afs
    | _ => none
  | _ => none

/-- The in-memory state contains an accounts map. -/
def hasAccountsMap (s : Json) : Bool :=
  (accountsMapOf s).isSome

/-- The default record built by `updateAccountState` for a new account
(`new Date().toISOString()` is the `now` argument). -/
def defaultRecord (now : String) : List (String × Json) :=
  [("lastSyncDate", .str now),
   ("totalFetched", .num 0),
   ("attachmentsSaved", .num 0),
   ("emailsSent", .num 0),
   ("draftsCreated", .num 0)]

/-- `updateAccountState(email, updates)`:
`this.state.accounts[email] = {...existing, ...updates, lastSyncDate: now}`.
Reading `this.state.accounts[email]` throws when `state.accounts` is
`undefined` or `null`; when `state.accounts` is a primitive the subsequent
property assignment throws in strict mode (an array target, which the
assignment would extend with a string key, is collapsed to the same error;
no claim depends on it).  A truthy non-object `existing` spreads to `{}`,
a falsy one is replaced by the default record. -/
def updateAccountState (s : Json) (email : String)
    (updates : List (String × Json)) (now : String) : Except String Json :=
  match s with
  | .obj fs =>
    match lookupKey fs "accounts" with
    | some (.obj afs) =>
      let existing :=
        match lookupKey afs email with
        | some (.obj efs) => efs
        | some j => if jsTruthy j then [] else defaultRecord now
        | none => defaultRecord now
      let newRecord := setKey (spreadObj existing updates) "lastSyncDate" (.str now)
      .ok (.obj (setKey fs "accounts" (.obj (setKey afs email (.obj newRecord)))))
    | _ => .error "TypeError"
  | _ => .error "TypeError"

/-- `existing.<k> += d` on a record field: JS `+=` on a non-numeric field
produces NaN or string concatenation, collapsed here to `null` (no claim
depends on the value). -/
def incrementNumField (efs : List (String × Json)) (k : String) (d : Int) :
    List (String × Json) :=
  setKey efs k (match lookupKey efs k with
    | some (.num n) => .num (n + d)
    | _ => .null)

/-- `incrementStats(email, fetched, attachments)`: mutate the record's
counters and `lastSyncDate` only when `this.state.accounts[email]` is
truthy; reading it throws when `state.accounts` is `undefined` or `null`
(a truthy non-object record makes the `+=` write throw in strict mode). -/
def incrementStats (s : Json) (email : String) (fetched attachments : Int)
    (now : String) : Except String Json :=
  match s with
  | .obj fs =>
    match lookupKey fs "accounts" with
    | some (.obj afs) =>
      match lookupKey afs email with
      | some (.obj efs) =>
        let efs1 := incrementNumField efs "totalFetched" fetched
        let efs2 := incrementNumField efs1 "attachmentsSaved" attachments
        let efs3 := setKey efs2 "lastSyncDate" (.str now)
        .ok (.obj (setKey fs "accounts" (.obj (setKey afs email (.obj efs3)))))
      | some j => if jsTruthy j then .error "TypeError" else .ok (.obj fs)
      | none => .ok (.obj fs)
    | some .null => .error "TypeError"
    | some _ => .ok (.obj fs)
    | none => .error "TypeError"
  | _ => .error "TypeError"

/-- `incrementSentCount(email)`: like `incrementStats` for `emailsSent += 1`. -/
def incrementSentCount (s : Json) (email : String) (now : String) :
    Except String Json :=
  match s with
  | .obj fs =>
    match lookupKey fs "accounts" with
    | some (.obj afs) =>
      match lookupKey afs email with
      | some (.obj efs) =>
        let efs1 := incrementNumField efs "emailsSent" 1
        let efs2 := setKey efs1 "lastSyncDate" (.str now)
        .ok (.obj (setKey fs "accounts" (.obj (setKey afs email (.obj efs2)))))
      | some j => if jsTruthy j then .error "TypeError" else .ok (.obj fs)
      | none => .ok (.obj fs)
    | some .null => .error "TypeError"
    | some _ => .ok (.obj fs)
    | none => .error "TypeError"
  | _ => .error "TypeError"

/-- `incrementDraftCount(email)`: like `incrementStats` for `draftsCreated += 1`. -/
def incrementDraftCount (s : Json) (email : String) (now : String) :
    Except String Json :=
  match s with
  | .obj fs =>
    match lookupKey fs "accounts" with
    | some (.obj afs) =>
      match lookupKey afs email with
      | some (.obj efs) =>
        let efs1 := incrementNumField efs "draftsCreated" 1
        let efs2 := setKey efs1 "lastSyncDate" (.str now)
        .ok (.obj (setKey fs "accounts" (.obj (setKey afs email (.obj efs2)))))
      | some j => if jsTruthy j then .error "TypeError" else .ok (.obj fs)
      | none => .ok (.obj fs)
    | some .null => .error "TypeError"
    | some _ => .ok (.obj fs)
    | none => .error "TypeError"
  | _ => .error "TypeError"

/-- `getAccountState(email)`: `this.state.accounts[email]` (`undefined`
modelled as `none`); throws when `state.accounts` is `undefined` or `null`,
yields `undefined` when it is a primitive. -/
def getAccountState (s : Json) (email : String) : Except String (Option Json) :=
  match s with
  | .obj fs =>
    match lookupKey fs "accounts" with
    | some (.obj afs) => .ok (lookupKey afs email)
    | some .null => .error "TypeError"
    | some _ => .ok none
    | none => .error "TypeError"
  | _ => .error "TypeError"

/-- `getAllAccounts()`: `Object.keys(this.state.accounts)`; throws on
`undefined`/`null`, and a primitive's keys (a string's index keys) are
collapsed to `[]` (no claim depends on them). -/
def getAllAccounts (s : Json) : Except String (List String) :=
  match s with
  | .obj fs =>
    match lookupKey fs "accounts" with
    | some (.obj afs) => .ok (afs.map (fun f => f.1))
    | some .null => .error "TypeError"
    | some _ => .ok []
    | none => .error "TypeError"
  | _ => .error "TypeError"

/-- The totals returned by `getStats()`. -/
structure SyncStats where
  totalAccounts : Nat
  totalFetched : Int
  totalAttachments : Int
  totalSent : Int
  totalDrafts : Int
deriving DecidableEq

/-- Numeric field of a record, `0` otherwise (models both the `|| 0`
fallbacks and the NaN collapse for the unguarded fields; no claim depends
on the totals of malformed records). -/
def numFieldOr0 (j : Json) (k : String) : Int :=
  match j with
  | .obj fs =>
    match lookupKey fs k with
    | some (.num n) => n
    | _ => 0
  | _ => 0

/-- `getStats()`: totals over `Object.values(this.state.accounts)`; throws
on `undefined`/`null` accounts, and a primitive's values are collapsed to
the empty list. -/
def getStats (s : Json) : Except String SyncStats :=
  match s with
  | .obj fs =>
    match lookupKey fs "accounts" with
    | some (.obj afs) =>
      let vals := afs.map (fun f => f.2)
      .ok { totalAccounts := vals.length
            totalFetched := (vals.map (fun a => numFieldOr0 a "totalFetched")).sum
            totalAttachments := (vals.map (fun a => numFieldOr0 a "attachmentsSaved")).sum
            totalSent := (vals.map (fun a => numFieldOr0 a "emailsSent")).sum
            totalDrafts := (vals.map (fun a => numFieldOr0 a "draftsCreated")).sum }
    | some .null => .error "TypeError"
    | some _ => .ok { totalAccounts := 0, totalFetched := 0, totalAttachments := 0,
                      totalSent := 0, totalDrafts := 0 }
    | none => .error "TypeError"
  | _ => .error "TypeError"

/-- `save()`: writes `JSON.stringify(this.state)` to disk and leaves the
in-memory state unchanged; the model returns the unchanged state. -/
def save (s : Json) : Json := s

/-! ## Concrete instances used by the witness theorems -/

/-- The log entry the loop would push for a candidate message id. -/
def logEntryFor (g : GmailService) (msgId : String) : LogEntry :=
  let info := extractEmailInfo (g.getFull msgId)
  ⟨info.date, info.fromAddr, info.subject, info.id⟩

/-- A part list with one top-level PDF attachment. -/
def pdfTree : MimePartList :=
  .cons (.node "scan.pdf" .nil) .nil

/-- A part list whose only nested leaf is a PNG (no PDF anywhere). -/
def pngTree : MimePartList :=
  .cons (.node "" (.cons (.node "photo.png" .nil) .nil)) .nil

/-- A concrete full-format message with the given id and part tree. -/
def mkMsg (mid : String) (parts : MimePartList) : GmailMessage :=
  { id := mid
    threadId := "t1"
    internalDate := 1704067200000
    snippet := ""
    payload := some { headers := [("Subject", "Rechnung 42"), ("From", "billing@example.com")]
                      parts := parts } }

/-- An oracle whose lone message has no PDF anywhere in its part tree. -/
def gNoPdf : GmailService :=
  { listMessages := fun _ _ => ["m1"]
    getFull := fun mid => mkMsg mid pngTree
    getRaw := fun _ => .ok (some (strCps "From: a@b\n\nHi"))
    sendResult := fun _ => .ok () }

/-- An oracle whose raw-format fetch throws for every message. -/
def gRawThrows : GmailService :=
  { listMessages := fun _ _ => ["m1"]
    getFull := fun mid => mkMsg mid pdfTree
    getRaw := fun _ => .error "network down"
    sendResult := fun _ => .ok () }

/-! # Theorems -/

/-! ## Claim C1: no PDF anywhere means never forwarded -/

mutual

/-- If no node of a part's subtree has a `.pdf` filename, the part's loop
body test is false. -/
theorem part_noPdf (p : MimePart)
    (h : ∀ q ∈ p.subtreeNodes, isPdfName q.filenameOf = false) :
    p.selfOrChildHasPdf = false :=
  match p with
  | .node f ps => by
    have hf : isPdfName f = false := by
      simpa [MimePart.filenameOf] using
        h (.node f ps) (by simp [MimePart.subtreeNodes])
    have hrest : ∀ q ∈ partsNodes ps, isPdfName q.filenameOf = false := by
      intro q hq
      exact h q (by simp [MimePart.subtreeNodes, hq])
    simp [MimePart.selfOrChildHasPdf, hf, parts_noPdf ps hrest]

/-- If no node of a part list's subtrees has a `.pdf` filename,
`checkParts` is false. -/
theorem parts_noPdf (ps : MimePartList)
    (h : ∀ q ∈ partsNodes ps, isPdfName q.filenameOf = false) :
    checkParts ps = false :=
  match ps with
  | .nil => rfl
  | .cons p rest => by
    have hp : ∀ q ∈ p.subtreeNodes, isPdfName q.filenameOf = false := by
      intro q hq
      exact h q (by simp [partsNodes, hq])
    have hr : ∀ q ∈ partsNodes rest, isPdfName q.filenameOf = false := by
      intro q hq
      exact h q (by simp [partsNodes, hq])
    simp [checkParts, part_noPdf p hp, parts_noPdf rest hr]

end

/-- **C1**: for every message whose MIME part tree (at any nesting depth)
contains no part with a filename ending in `.pdf` case-insensitively, the
per-message loop body — in dry-run and execute mode alike — skips the
message with reason "No PDF attachment", counts it as skipped, records no
forwarded-log entry, and issues no remote call beyond the full-format
fetch (in particular, no send call). -/
theorem noPdf_never_forwarded (isDryRun : Bool) (g : GmailService) (msgId : String)
    (h : ∀ q ∈ partsNodes (messageParts (g.getFull msgId)), isPdfName q.filenameOf = false) :
    processMessage isDryRun g msgId =
      { events := [.getFullCall msgId]
        console := ["Skipped: No PDF attachment"]
        forwardedDelta := 0
        skippedDelta := 1
        logEntry := none } := by
  have hpdf : hasPdfAttachment (g.getFull msgId) = false :=
    parts_noPdf _ h
  simp [processMessage, hpdf]

/-- Witness for C1: a concrete message whose only (nested) attachment is a
PNG, processed in execute mode. -/
theorem noPdf_never_forwarded_witness :
    (∀ q ∈ partsNodes (messageParts (gNoPdf.getFull "m1")), isPdfName q.filenameOf = false) ∧
    processMessage false gNoPdf "m1" =
      { events := [.getFullCall "m1"]
        console := ["Skipped: No PDF attachment"]
        forwardedDelta := 0
        skippedDelta := 1
        logEntry := none } :=
  ⟨by decide, noPdf_never_forwarded false gNoPdf "m1" (by decide)⟩

/-! ## Claim C3: the junk-attachment rules -/

/-- **C3**: `isJunkAttachment(filename, size)` returns true iff one of the
three ordered rules matches — a sub-500-byte image extension, a sub-50-KB
junk-pattern name, or a sub-10-KB size-dependent-pattern name — and the six
boundary cases behave as the spec states (the 500-byte image is, in
particular, not matched by rule 1). -/
theorem isJunkAttachment_iff_rules :
    (∀ f s, isJunkAttachment f s = true ↔
      ((s < 500 ∧ hasImageExt f = true) ∨
       (s < 50 * 1024 ∧ matchJunkPatterns f = true) ∨
       (s < 10 * 1024 ∧ matchSizeDependentPatterns f = true))) ∧
    isJunkAttachment "photo.png" 499 = true ∧
    (isJunkAttachment "photo.png" 500 = false ∧
      ¬ (500 < 500 ∧ hasImageExt "photo.png" = true)) ∧
    isJunkAttachment "logo.png" (49 * 1024) = true ∧
    isJunkAttachment "logo.png" (51 * 1024) = false ∧
    isJunkAttachment "image001.png" (9 * 1024) = true ∧
    isJunkAttachment "image001.png" (11 * 1024) = false := by
  refine ⟨fun f s => ?_, by decide, ⟨by decide, by decide⟩, by decide, by decide,
    by decide, by decide⟩
  unfold isJunkAttachment
  split_ifs with h1 h2 h3 <;>
    simp_all [Bool.and_eq_true, decide_eq_true_eq]

/-! ## Claim C4: what the fetch pipeline's save step keeps -/

/-- Counterexample to C4 as stated: `invoice.pdf` at 800 bytes with MIME
type `application/pdf` matches none of the three junk rules, yet the save
step's filter drops it (the filter also requires `size >= 1000`). -/
theorem small_non_junk_attachment_dropped :
    isJunkAttachment "invoice.pdf" 800 = false ∧
    isRelevantMimeType "application/pdf" = true ∧
    relevantAttachments [⟨"att1", "invoice.pdf", "application/pdf", 800, none⟩] = [] := by
  decide

/-- **C4 (amended)**: an attachment is kept by the save step iff it is in
the input list, its size is at least 1000 bytes, its MIME type is in the
relevant list, and it matches none of the junk rules — not-junk alone is
not sufficient. -/
theorem mem_relevantAttachments_iff (att : AttachmentInfo) (atts : List AttachmentInfo) :
    att ∈ relevantAttachments atts ↔
      att ∈ atts ∧ 1000 ≤ att.size ∧ isRelevantMimeType att.mimeType = true ∧
        isJunkAttachment att.filename att.size = false := by
  simp [relevantAttachments, List.mem_filter, Bool.and_eq_true, decide_eq_true_eq,
    Bool.not_eq_true', and_assoc]

/-! ## Claim C5: dry-run issues no sends and logs every stage-1-and-2 match -/

/-- In dry-run mode the loop issues no send call, and the forwarded log is
exactly the log entry of every candidate with a PDF attachment, in order. -/
theorem runLoop_dryRun (g : GmailService) (ids : List String) :
    (runLoop true g ids).events.countP Event.isSend = 0 ∧
    (runLoop true g ids).forwardedLog =
      (ids.filter (fun i => hasPdfAttachment (g.getFull i))).map (logEntryFor g) := by
  induction ids with
  | nil => simp [runLoop]
  | cons i rest ih =>
    by_cases hp : hasPdfAttachment (g.getFull i) <;>
      simp [runLoop, processMessage, hp, List.countP_append, ih.1, ih.2, logEntryFor,
        List.filter_cons, Event.isSend]

/-- The loop state of a run is `runLoop` on the listed candidates (also
when the search returned none). -/
theorem mainModel_loop (d : Bool) (g : GmailService) (since : String) (maxN : Nat) :
    (mainModel d g since maxN).loop =
      runLoop d g (g.listMessages (buildSearchQuery since) maxN) := by
  simp only [mainModel]
  split
  · next hempty =>
    rw [List.isEmpty_iff.mp hempty]
    rfl
  · rfl

/-- A run's trace is the list call, then the loop's events, then — last —
the log-file write, present exactly when the forwarded log is non-empty. -/
theorem mainModel_trace (d : Bool) (g : GmailService) (since : String) (maxN : Nat) :
    (mainModel d g since maxN).trace =
      Event.listCall (buildSearchQuery since) maxN ::
        ((mainModel d g since maxN).loop.events ++
          (if (mainModel d g since maxN).loop.forwardedLog.length > 0
            then [Event.fileWrite (mainModel d g since maxN).loop.forwardedLog]
            else [])) := by
  simp only [mainModel]
  split
  · rfl
  · rfl

/-- **C5**: with the `--execute` flag absent, a whole run performs zero
send-API calls, while the in-memory forwarded log records (in order) every
listed message that also passes the PDF check — everything that would have
been forwarded. -/
theorem dryRun_no_sends_full_log (g : GmailService) (since : String) (maxN : Nat) :
    (mainModel true g since maxN).trace.countP Event.isSend = 0 ∧
    (mainModel true g since maxN).loop.forwardedLog =
      ((g.listMessages (buildSearchQuery since) maxN).filter
          (fun i => hasPdfAttachment (g.getFull i))).map (logEntryFor g) := by
  have h := runLoop_dryRun g (g.listMessages (buildSearchQuery since) maxN)
  have hl := mainModel_loop true g since maxN
  refine ⟨?_, by rw [hl]; exact h.2⟩
  rw [mainModel_trace true g since maxN, hl]
  simp [List.countP_cons, List.countP_append, Event.isSend, h.1]

/-! ## Claim C7: per-message exceptions are caught, logged, and contained -/

/-- **C7**: in execute mode, if the raw fetch throws, the `raw` field is
missing, or the send throws for a candidate (one with a PDF attachment),
then `forwardEmail` returns `false` with the error's message text logged,
the message is counted as failed (no forwarded-log entry, `skipped + 1`),
exactly one raw fetch is attempted (no retry), and the loop's outcome on
the remaining candidates is unaffected — the exception never escapes the
per-message step. -/
theorem forward_exception_contained (g : GmailService) (msgId : String) (rest : List String)
    (hpdf : hasPdfAttachment (g.getFull msgId) = true)
    (h : (∃ e, g.getRaw msgId = .error e) ∨ g.getRaw msgId = .ok none ∨
         (∃ raw e, g.getRaw msgId = .ok (some raw) ∧
           g.sendResult (encodedMessageOf (extractEmailInfo (g.getFull msgId)).subject raw) =
             .error e)) :
    (forwardEmail g msgId (extractEmailInfo (g.getFull msgId))).1 = false ∧
    (∃ e, (forwardEmail g msgId (extractEmailInfo (g.getFull msgId))).2.2 =
      ["Forward failed: " ++ e]) ∧
    (processMessage false g msgId).events.countP Event.isGetRaw = 1 ∧
    (processMessage false g msgId).logEntry = none ∧
    runLoop false g (msgId :: rest) =
      { processed := (runLoop false g rest).processed + 1
        forwarded := (runLoop false g rest).forwarded
        skipped := 1 + (runLoop false g rest).skipped
        forwardedLog := (runLoop false g rest).forwardedLog
        events := (processMessage false g msgId).events ++ (runLoop false g rest).events
        console := (processMessage false g msgId).console ++ (runLoop false g rest).console } := by
  obtain ⟨e, he⟩ | he | ⟨raw, e, hraw, hsend⟩ := h
  · have hfe : forwardEmail g msgId (extractEmailInfo (g.getFull msgId)) =
        (false, [.getRawCall msgId], ["Forward failed: " ++ e]) := by
      simp [forwardEmail, he]
    refine ⟨by simp [hfe], ⟨e, by simp [hfe]⟩, ?_, ?_, ?_⟩
    · simp [processMessage, hpdf, hfe, Event.isGetRaw]
    · simp [processMessage, hpdf, hfe]
    · simp [runLoop, processMessage, hpdf, hfe]
  · have hfe : forwardEmail g msgId (extractEmailInfo (g.getFull msgId)) =
        (false, [.getRawCall msgId], ["Forward failed: No raw message data"]) := by
      simp [forwardEmail, he]
    refine ⟨by simp [hfe], ⟨"No raw message data", by simp [hfe]⟩, ?_, ?_, ?_⟩
    · simp [processMessage, hpdf, hfe, Event.isGetRaw]
    · simp [processMessage, hpdf, hfe]
    · simp [runLoop, processMessage, hpdf, hfe]
  · have hfe : forwardEmail g msgId (extractEmailInfo (g.getFull msgId)) =
        (false, [.getRawCall msgId,
          .sendCall (encodedMessageOf (extractEmailInfo (g.getFull msgId)).subject raw)],
          ["Forward failed: " ++ e]) := by
      simp [forwardEmail, hraw, hsend]
    refine ⟨by simp [hfe], ⟨e, by simp [hfe]⟩, ?_, ?_, ?_⟩
    · simp [processMessage, hpdf, hfe, Event.isGetRaw]
    · simp [processMessage, hpdf, hfe]
    · simp [runLoop, processMessage, hpdf, hfe]

/-- Witness for C7: a concrete oracle whose raw fetch throws
`network down` for the lone PDF-bearing candidate. -/
theorem forward_exception_contained_witness :
    hasPdfAttachment (gRawThrows.getFull "m1") = true ∧
    (∃ e, gRawThrows.getRaw "m1" = .error e) ∧
    ((forwardEmail gRawThrows "m1" (extractEmailInfo (gRawThrows.getFull "m1"))).1 = false ∧
     (∃ e, (forwardEmail gRawThrows "m1" (extractEmailInfo (gRawThrows.getFull "m1"))).2.2 =
       ["Forward failed: " ++ e]) ∧
     (processMessage false gRawThrows "m1").events.countP Event.isGetRaw = 1 ∧
     (processMessage false gRawThrows "m1").logEntry = none ∧
     runLoop false gRawThrows ["m1"] =
       { processed := (runLoop false gRawThrows []).processed + 1
         forwarded := (runLoop false gRawThrows []).forwarded
         skipped := 1 + (runLoop false gRawThrows []).skipped
         forwardedLog := (runLoop false gRawThrows []).forwardedLog
         events := (processMessage false gRawThrows "m1").events ++
           (runLoop false gRawThrows []).events
         console := (processMessage false gRawThrows "m1").console ++
           (runLoop false gRawThrows []).console }) :=
  ⟨by decide, ⟨"network down", rfl⟩,
    forward_exception_contained gRawThrows "m1" [] (by decide)
      (Or.inl ⟨"network down", rfl⟩)⟩

/-! ## Claim C8: the audit-log file write -/

/-- `forwardEmail` never writes a file. -/
theorem forwardEmail_no_fileWrite (g : GmailService) (msgId : String) (info : EmailInfo) :
    (forwardEmail g msgId info).2.1.countP Event.isFileWrite = 0 := by
  unfold forwardEmail
  cases hr : g.getRaw msgId with
  | error e => simp [Event.isFileWrite]
  | ok o =>
    cases o with
    | none => simp [Event.isFileWrite]
    | some raw =>
      cases hs : g.sendResult (encodedMessageOf info.subject raw) with
      | error e => simp [hs, Event.isFileWrite]
      | ok u => simp [hs, Event.isFileWrite]

/-- The loop body never writes a file. -/
theorem processMessage_no_fileWrite (d : Bool) (g : GmailService) (msgId : String) :
    (processMessage d g msgId).events.countP Event.isFileWrite = 0 := by
  unfold processMessage
  by_cases hp : hasPdfAttachment (g.getFull msgId)
  · simp only [hp]
    cases d
    · have := forwardEmail_no_fileWrite g msgId (extractEmailInfo (g.getFull msgId))
      rcases hfe : forwardEmail g msgId (extractEmailInfo (g.getFull msgId)) with ⟨succ, evs, errs⟩
      rw [hfe] at this
      cases succ <;> simp_all [Event.isFileWrite]
    · simp [Event.isFileWrite]
  · simp [hp, Event.isFileWrite]

/-- The processing loop never writes a file. -/
theorem runLoop_no_fileWrite (d : Bool) (g : GmailService) (ids : List String) :
    (runLoop d g ids).events.countP Event.isFileWrite = 0 := by
  induction ids with
  | nil => simp [runLoop]
  | cons i rest ih =>
    simp [runLoop, List.countP_append, ih, processMessage_no_fileWrite]

/-- **C8**: a run's trace contains exactly one file write iff the in-memory
forwarded log is non-empty; the trace is the list call, then every loop
event, then — only at the very end — that write; and the loop itself never
writes, so no log write happens before the loop finishes. -/
theorem log_file_write_spec (d : Bool) (g : GmailService) (since : String) (maxN : Nat) :
    ((mainModel d g since maxN).trace.countP Event.isFileWrite = 1 ↔
      (mainModel d g since maxN).loop.forwardedLog ≠ []) ∧
    (mainModel d g since maxN).trace =
      Event.listCall (buildSearchQuery since) maxN ::
        ((mainModel d g since maxN).loop.events ++
          (if (mainModel d g since maxN).loop.forwardedLog.length > 0
            then [Event.fileWrite (mainModel d g since maxN).loop.forwardedLog]
            else [])) ∧
    (mainModel d g since maxN).loop.events.countP Event.isFileWrite = 0 := by
  have hl := mainModel_loop d g since maxN
  have hnw : (mainModel d g since maxN).loop.events.countP Event.isFileWrite = 0 := by
    rw [hl]
    exact runLoop_no_fileWrite d g _
  refine ⟨?_, mainModel_trace d g since maxN, hnw⟩
  rw [mainModel_trace d g since maxN]
  simp [List.countP_cons, List.countP_append, Event.isFileWrite, hnw]
  rcases hlog : (mainModel d g since maxN).loop.forwardedLog with _ | ⟨a, rest⟩
  · simp
  · simp [List.countP_cons, Event.isFileWrite]

/-! ## Claim C6: the stage-1 query string and keyword exclusion -/

/-- **C6**: `buildSearchQuery` returns exactly `after:` + the since-date
with every `-` replaced by `/` + ` has:attachment (` + the nine keywords
joined by ` OR ` + `)`; and under a server model honouring this query, a
message whose searchable text mentions none of the nine keywords is never
returned by the stage-1 search, hence never reaches stage 2 (the loop only
iterates over what the search returned). -/
theorem buildSearchQuery_spec :
    (∀ s : String, buildSearchQuery s =
      "after:" ++ replaceDashSlash s ++
        " has:attachment (rechnung OR invoice OR billing OR abrechnung OR gutschrift OR faktura OR zahlungsaufforderung OR payment OR bestellung)") ∧
    (∀ (cutoff : Nat) (msgs : List ServerMessage) (m : ServerMessage),
      (∀ k ∈ INVOICE_KEYWORDS, mentionsKeyword m k = false) →
        m ∉ serverSearch cutoff msgs) := by
  constructor
  · intro s
    simp only [buildSearchQuery]
    rw [String.append_assoc, String.append_assoc]
    congr 1
  · intro cutoff msgs m hm hmem
    rw [serverSearch, List.mem_filter] at hmem
    have hsat := hmem.2
    simp only [satisfiesQuery, Bool.and_eq_true, List.any_eq_true] at hsat
    obtain ⟨k, hk, hmk⟩ := hsat.2
    rw [hm k hk] at hmk
    exact Bool.false_ne_true hmk

/-- Witness for C6: the query built for `2026-01-01`, and a concrete
keyword-free message excluded from a concrete search. -/
theorem buildSearchQuery_spec_witness :
    buildSearchQuery "2026-01-01" =
      "after:" ++ replaceDashSlash "2026-01-01" ++
        " has:attachment (rechnung OR invoice OR billing OR abrechnung OR gutschrift OR faktura OR zahlungsaufforderung OR payment OR bestellung)" ∧
    (∀ k ∈ INVOICE_KEYWORDS,
      mentionsKeyword ⟨"m0", "hello world", true, 5⟩ k = false) ∧
    (⟨"m0", "hello world", true, 5⟩ : ServerMessage) ∉
      serverSearch 0 [⟨"m0", "hello world", true, 5⟩] :=
  ⟨buildSearchQuery_spec.1 "2026-01-01", by decide,
    buildSearchQuery_spec.2 0 [⟨"m0", "hello world", true, 5⟩]
      ⟨"m0", "hello world", true, 5⟩ (by decide)⟩

/-! ## Claim C2: byte preservation of the nested `message/rfc822` body -/

/-- Every UTF-8-encoded byte is below 256. -/
theorem utf8EncodeChar_lt256 (c : Nat) : ∀ b ∈ utf8EncodeChar c, b < 256 := by
  intro b hb
  unfold utf8EncodeChar at hb
  split_ifs at hb <;> simp_all <;> omega

/-- Every byte of a UTF-8-encoded codepoint sequence is below 256. -/
theorem utf8Encode_lt256 (cps : List Nat) : ∀ b ∈ utf8Encode cps, b < 256 := by
  intro b hb
  rw [utf8Encode, List.mem_flatMap] at hb
  obtain ⟨c, _, hbc⟩ := hb
  exact utf8EncodeChar_lt256 c b hbc

/-- No base64url output character is `=` (61). -/
theorem urlChar_ne_61 (v : Nat) :
    (if (if b64char v = 43 then 45 else b64char v) = 47 then 95
      else if b64char v = 43 then 45 else b64char v) ≠ 61 := by
  unfold b64char
  split_ifs <;> omega

/-- The base64url alphabet round-trips through `b64inv` on sextet values. -/
theorem b64inv_urlChar (v : Nat) (hv : v < 64) :
    b64inv (if (if b64char v = 43 then 45 else b64char v) = 47 then 95
      else if b64char v = 43 then 45 else b64char v) = v := by
  revert hv
  revert v
  decide

/-- Stripping trailing `=` skips over a `=`-free block. -/
theorem stripTrailingEq_append (X Y : List Nat) (hx : ∀ x ∈ X, x ≠ 61) :
    stripTrailingEq (X ++ Y) = X ++ stripTrailingEq Y := by
  unfold stripTrailingEq
  rw [List.reverse_append, List.dropWhile_append]
  split
  · next hemp =>
    have hXrev : X.reverse.dropWhile (fun c => c = 61) = X.reverse := by
      cases hX : X.reverse with
      | nil => rfl
      | cons a t =>
        have ha : a ∈ X := by
          rw [← List.mem_reverse, hX]
          simp
        rw [List.dropWhile_cons]
        simp [hx a ha]
    rw [List.isEmpty_iff] at hemp
    rw [hemp, hXrev]
    simp
  · next hemp =>
    simp

/-- Unfolding `b64urlDecode` on a group of four characters. -/
theorem b64urlDecode_cons4 (c1 c2 c3 c4 : Nat) (t : List Nat) :
    b64urlDecode (c1 :: c2 :: c3 :: c4 :: t) =
      (b64inv c1 * 4 + b64inv c2 / 16) :: (b64inv c2 % 16 * 16 + b64inv c3 / 4) ::
        (b64inv c3 % 4 * 64 + b64inv c4) :: b64urlDecode t := by
  cases t with
  | nil => rfl
  | cons x xs => rfl

/-- The padding-stripped base64url encoding of a byte list decodes back to
it (Node's encode, two character replacements, `=`-strip; then the
receiver's base64url decode). -/
theorem b64url_roundtrip : ∀ (l : List Nat), (∀ b ∈ l, b < 256) →
    b64urlDecode (b64urlEncode l) = l
  | [], _ => rfl
  | [a], h => by
    have ha : a < 256 := h a (by simp)
    have h1 := b64inv_urlChar (a / 4) (by omega)
    have h2 := b64inv_urlChar (a % 4 * 16) (by omega)
    simp only [b64urlEncode, b64encode, replacePlus, replaceSlash, List.map_cons,
      List.map_nil, stripTrailingEq, List.reverse_cons, List.reverse_nil, List.nil_append,
      List.cons_append, List.dropWhile]
    norm_num
    rw [decide_eq_false (urlChar_ne_61 (a % 4 * 16))]
    simp only [List.reverse_cons, List.reverse_nil, List.nil_append, List.cons_append,
      List.singleton_append, b64urlDecode]
    rw [h1, h2]
    congr 1
    omega
  | [a, b], h => by
    have ha : a < 256 := h a (by simp)
    have hb : b < 256 := h b (by simp)
    have h1 := b64inv_urlChar (a / 4) (by omega)
    have h2 := b64inv_urlChar (a % 4 * 16 + b / 16) (by omega)
    have h3 := b64inv_urlChar (b % 16 * 4) (by omega)
    simp only [b64urlEncode, b64encode, replacePlus, replaceSlash, List.map_cons,
      List.map_nil, stripTrailingEq, List.reverse_cons, List.reverse_nil, List.nil_append,
      List.cons_append, List.dropWhile]
    norm_num
    rw [decide_eq_false (urlChar_ne_61 (b % 16 * 4))]
    simp only [List.reverse_cons, List.reverse_nil, List.nil_append, List.cons_append,
      List.singleton_append, b64urlDecode]
    rw [h1, h2, h3]
    congr 1
    · omega
    · congr 1
      omega
  | a :: b :: c :: rest, h => by
    have ha : a < 256 := h a (by simp)
    have hb : b < 256 := h b (by simp)
    have hc : c < 256 := h c (by simp)
    have hrest : ∀ x ∈ rest, x < 256 := fun x hx => h x (by simp [hx])
    have ih := b64url_roundtrip rest hrest
    have h1 := b64inv_urlChar (a / 4) (by omega)
    have h2 := b64inv_urlChar (a % 4 * 16 + b / 16) (by omega)
    have h3 := b64inv_urlChar (b % 16 * 4 + c / 64) (by omega)
    have h4 := b64inv_urlChar (c % 64) (by omega)
    have hsplit : b64urlEncode (a :: b :: c :: rest) =
        (if (if b64char (a / 4) = 43 then 45 else b64char (a / 4)) = 47 then 95
          else if b64char (a / 4) = 43 then 45 else b64char (a / 4)) ::
        (if (if b64char (a % 4 * 16 + b / 16) = 43 then 45 else b64char (a % 4 * 16 + b / 16)) = 47 then 95
          else if b64char (a % 4 * 16 + b / 16) = 43 then 45 else b64char (a % 4 * 16 + b / 16)) ::
        (if (if b64char (b % 16 * 4 + c / 64) = 43 then 45 else b64char (b % 16 * 4 + c / 64)) = 47 then 95
          else if b64char (b % 16 * 4 + c / 64) = 43 then 45 else b64char (b % 16 * 4 + c / 64)) ::
        (if (if b64char (c % 64) = 43 then 45 else b64char (c % 64)) = 47 then 95
          else if b64char (c % 64) = 43 then 45 else b64char (c % 64)) ::
        b64urlEncode rest := by
      show stripTrailingEq _ = _
      rw [show (b64encode (a :: b :: c :: rest)) =
        [b64char (a / 4), b64char (a % 4 * 16 + b / 16), b64char (b % 16 * 4 + c / 64),
          b64char (c % 64)] ++ b64encode rest from rfl]
      rw [show ∀ l1 l2 : List Nat, replaceSlash (replacePlus (l1 ++ l2)) =
        replaceSlash (replacePlus l1) ++ replaceSlash (replacePlus l2) from by
          intro l1 l2
          simp [replacePlus, replaceSlash]]
      rw [stripTrailingEq_append]
      · rfl
      · intro x hx
        simp only [replacePlus, replaceSlash, List.map_cons, List.map_nil,
          List.mem_cons, List.not_mem_nil, or_false] at hx
        rcases hx with h | h | h | h <;> (subst h; exact urlChar_ne_61 _)
    rw [hsplit, b64urlDecode_cons4, h1, h2, h3, h4, ih]
    congr 1
    · omega
    congr 1
    · omega
    congr 1
    omega

/-- UTF-8 encoding distributes over append. -/
theorem utf8Encode_append (x y : List Nat) :
    utf8Encode (x ++ y) = utf8Encode x ++ utf8Encode y := by
  simp [utf8Encode]

/-- Only the codepoint 10 encodes to a byte sequence containing 10. -/
theorem utf8EncodeChar_ten (c : Nat) (h : (10:Nat) ∈ utf8EncodeChar c) : c = 10 := by
  unfold utf8EncodeChar at h
  split_ifs at h <;> simp_all <;> omega

/-- A newline-free codepoint sequence encodes to newline-free bytes. -/
theorem utf8Encode_no_ten (cps : List Nat) (h : (10:Nat) ∉ cps) :
    (10:Nat) ∉ utf8Encode cps := by
  intro hmem
  rw [utf8Encode, List.mem_flatMap] at hmem
  obtain ⟨c, hc, h10⟩ := hmem
  exact h ((utf8EncodeChar_ten c h10) ▸ hc)

/-- `dropLines` consumes one whole newline-free line. -/
theorem dropLines_through (k : Nat) (A B : List Nat) (hA : (10:Nat) ∉ A) :
    dropLines (k + 1) (A ++ 10 :: B) = dropLines k B := by
  induction A with
  | nil => simp [dropLines]
  | cons a t ih =>
    have ha : a ≠ 10 := fun h => hA (by simp [h])
    have ht : (10:Nat) ∉ t := fun h => hA (by simp [h])
    simp [dropLines, ha, ih ht]

/-- `dropLines 4` extracts the body after three newline-free header lines
and the blank line. -/
theorem dropLines4 (A1 A2 A3 tail : List Nat) (h1 : (10:Nat) ∉ A1)
    (h2 : (10:Nat) ∉ A2) (h3 : (10:Nat) ∉ A3) :
    dropLines 4 (A1 ++ 10 :: (A2 ++ 10 :: (A3 ++ 10 :: 10 :: tail))) = tail :=
  (dropLines_through 3 A1 _ h1).trans
    ((dropLines_through 2 A2 _ h2).trans
      ((dropLines_through 1 A3 _ h3).trans (by simp [dropLines])))

/-- **C2 (amended)**: for every forwarded message whose raw bytes survive
Node's UTF-8 decode/encode round trip unchanged (i.e. are valid UTF-8 —
raw RFC 2822 transport encodings are ASCII, a special case) and whose
display subject contains no newline, decoding the sent base64url payload
and taking the content after the blank line that follows the `To`,
`Subject`, and `Content-Type` headers reproduces the original raw bytes
exactly. -/
theorem forward_preserves_raw (origBytes : List Nat) (subject : String)
    (hvalid : utf8Encode (utf8Decode origBytes) = origBytes)
    (hsubj : (10:Nat) ∉ strCps subject) :
    dropLines 4 (b64urlDecode (encodedMessageOf subject origBytes)) = origBytes := by
  have h256 := utf8Encode_lt256 (forwardMessageCps subject (utf8Decode origBytes))
  rw [encodedMessageOf, b64url_roundtrip _ h256]
  rw [forwardMessageCps]
  have h10 : utf8EncodeChar 10 = [10] := rfl
  have hcons : ∀ (c : Nat) (t : List Nat),
      utf8Encode (c :: t) = utf8EncodeChar c ++ utf8Encode t := fun c t => rfl
  have hnil : utf8Encode ([] : List Nat) = [] := rfl
  simp only [utf8Encode_append, hcons, hnil, h10, hvalid, List.append_assoc,
    List.cons_append, List.singleton_append, List.append_nil, List.nil_append]
  rw [← List.append_assoc (utf8Encode (strCps "Subject: Fwd: ")) (utf8Encode (strCps subject))]
  refine dropLines4 _ _ _ _ ?_ ?_ ?_
  · decide
  · intro hmem
    rcases List.mem_append.mp hmem with hh | hh
    · exact (by decide : (10:Nat) ∉ utf8Encode (strCps "Subject: Fwd: ")) hh
    · exact utf8Encode_no_ten _ hsubj hh
  · decide

/-- Counterexample to C2 as stated: a raw message consisting of the single
byte `0x80` (not valid UTF-8) is decoded to U+FFFD by
`Buffer.toString('utf8')`, so the forwarded nested body re-encodes to
`EF BF BD` — not the original byte. -/
theorem forward_not_byte_exact :
    utf8Decode [128] = [65533] ∧
    dropLines 4 (b64urlDecode (encodedMessageOf "Re" [128])) = [239, 191, 189] ∧
    dropLines 4 (b64urlDecode (encodedMessageOf "Re" [128])) ≠ [128] := by
  refine ⟨by decide, by decide, by decide⟩

/-- Witness for C2 (amended): a concrete ASCII raw message round-trips
byte-for-byte through the forward. -/
theorem forward_preserves_raw_witness :
    utf8Encode (utf8Decode (strCps "From: a@b\n\nHello")) = strCps "From: a@b\n\nHello" ∧
    (10:Nat) ∉ strCps "Rechnung 42" ∧
    dropLines 4 (b64urlDecode (encodedMessageOf "Rechnung 42" (strCps "From: a@b\n\nHello"))) =
      strCps "From: a@b\n\nHello" :=
  ⟨by decide, by decide, forward_preserves_raw _ _ (by decide) (by decide)⟩

/-! ## Claims C9 and C10: the sync-state store -/

/-- Unfolding `lookupKey` over a cons. -/
theorem lookupKey_cons (k1 : String) (v1 : Json) (t : List (String × Json)) (k : String) :
    lookupKey ((k1, v1) :: t) k = if k1 = k then some v1 else lookupKey t k := by
  by_cases h : k1 = k
  · simp [lookupKey, List.find?_cons_of_pos, h]
  · rw [if_neg h]
    unfold lookupKey
    rw [List.find?_cons_of_neg]
    simpa using h

/-- Unfolding `setKey` over a cons. -/
theorem setKey_cons (k1 : String) (v1 : Json) (t : List (String × Json)) (k : String) (v : Json) :
    setKey ((k1, v1) :: t) k v =
      if k1 = k then (k, v) :: t else (k1, v1) :: setKey t k v := by
  by_cases h : k1 = k <;> simp [setKey, h]

/-- An assignment is visible to a lookup of the same key. -/
theorem lookupKey_setKey_self (fs : List (String × Json)) (k : String) (v : Json) :
    lookupKey (setKey fs k v) k = some v := by
  induction fs with
  | nil => simp [setKey, lookupKey_cons]
  | cons f t ih =>
    obtain ⟨k1, v1⟩ := f
    rw [setKey_cons]
    by_cases h : k1 = k
    · simp [h, lookupKey_cons]
    · simp [h, lookupKey_cons, ih]

/-- An assignment leaves lookups of other keys unchanged. -/
theorem lookupKey_setKey_ne (fs : List (String × Json)) (k k' : String) (v : Json)
    (h : k' ≠ k) : lookupKey (setKey fs k v) k' = lookupKey fs k' := by
  induction fs with
  | nil =>
    show lookupKey [(k, v)] k' = lookupKey [] k'
    rw [lookupKey_cons, if_neg (Ne.symm h)]
  | cons f t ih =>
    obtain ⟨k1, v1⟩ := f
    rw [setKey_cons]
    by_cases h1 : k1 = k
    · subst h1
      rw [if_pos rfl, lookupKey_cons, if_neg (Ne.symm h), lookupKey_cons, if_neg (Ne.symm h)]
    · rw [if_neg h1, lookupKey_cons, lookupKey_cons]
      by_cases h2 : k1 = k'
      · simp [h2]
      · simp [h2, ih]

/-- A spread leaves keys absent from the right operand unchanged. -/
theorem lookupKey_spreadObj_none (a b : List (String × Json)) (k : String)
    (h : lookupKey b k = none) : lookupKey (spreadObj a b) k = lookupKey a k := by
  induction b generalizing a with
  | nil => rfl
  | cons f t ih =>
    obtain ⟨k1, v1⟩ := f
    rw [lookupKey_cons] at h
    by_cases h1 : k1 = k
    · simp [h1] at h
    · rw [if_neg h1] at h
      show lookupKey (spreadObj (setKey a k1 v1) t) k = lookupKey a k
      rw [ih (setKey a k1 v1) h]
      exact lookupKey_setKey_ne a k1 k v1 (fun he => h1 he.symm)

/-- Counterexample to C9 as stated: a state file containing the valid JSON
value `{}` loads verbatim, and the resulting in-memory state has no
accounts map. -/
theorem parsed_without_accounts_map :
    hasAccountsMap (load (.parsed (.obj []))) = false := rfl

/-- **C9 (amended)**: after construction the in-memory state contains an
accounts map iff the file was absent, unparsable, or itself a JSON object
with an object `accounts` property (a parsed value is kept verbatim,
unvalidated); given the accounts map, `updateAccountState` always succeeds
and preserves it, the increment operations preserve it whenever they
complete, the read operations (`getAccountState`, `getAllAccounts`,
`getStats`) succeed without modifying the state, and `save` leaves the
state unchanged. -/
theorem syncState_accounts_invariant :
    (∀ fs : FileState, hasAccountsMap (load fs) = true ↔
      (fs = .absent ∨ fs = .unparsable ∨ ∃ j, fs = .parsed j ∧ hasAccountsMap j = true)) ∧
    (∀ s email updates now, hasAccountsMap s = true →
      ∃ s', updateAccountState s email updates now = .ok s' ∧ hasAccountsMap s' = true) ∧
    (∀ s email f a now s', incrementStats s email f a now = .ok s' →
      hasAccountsMap s' = hasAccountsMap s) ∧
    (∀ s email now s', incrementSentCount s email now = .ok s' →
      hasAccountsMap s' = hasAccountsMap s) ∧
    (∀ s email now s', incrementDraftCount s email now = .ok s' →
      hasAccountsMap s' = hasAccountsMap s) ∧
    (∀ s email, hasAccountsMap s = true → ∃ r, getAccountState s email = .ok r) ∧
    (∀ s, hasAccountsMap s = true → ∃ ks, getAllAccounts s = .ok ks) ∧
    (∀ s, hasAccountsMap s = true → ∃ st, getStats s = .ok st) ∧
    (∀ s, save s = s) := by
  have hdestruct : ∀ s : Json, hasAccountsMap s = true →
      ∃ fs afs, s = .obj fs ∧ lookupKey fs "accounts" = some (.obj afs) := by
    intro s hs
    cases s <;> simp [hasAccountsMap, accountsMapOf] at hs
    next fs =>
      cases hacc : lookupKey fs "accounts" with
      | none => rw [hacc] at hs; simp at hs
      | some j =>
        cases j <;> rw [hacc] at hs <;> simp at hs
        next afs => exact ⟨fs, afs, rfl, hacc⟩
  have hpost : ∀ (fs : List (String × Json)) (X : Json),
      hasAccountsMap (.obj (setKey fs "accounts" X)) =
        (match X with | .obj _ => true | _ => false) := by
    intro fs X
    cases X <;> simp [hasAccountsMap, accountsMapOf, lookupKey_setKey_self]
  refine ⟨?_, ?_, ?_, ?_, ?_, ?_, ?_, ?_, fun s => rfl⟩
  · intro fs
    cases fs with
    | absent => simp [load]; rfl
    | unparsable => simp [load]; rfl
    | parsed j => simp [load]
  · intro s email updates now hs
    obtain ⟨fs, afs, rfl, hacc⟩ := hdestruct s hs
    unfold updateAccountState
    dsimp only
    rw [hacc]
    exact ⟨_, rfl, by simpa using hpost fs _⟩
  · intro s email f a now s' hok
    unfold incrementStats at hok
    repeat' split at hok
    all_goals simp at hok
    all_goals try subst hok
    all_goals simp_all [hasAccountsMap, accountsMapOf, lookupKey_setKey_self]
  · intro s email now s' hok
    unfold incrementSentCount at hok
    repeat' split at hok
    all_goals simp at hok
    all_goals try subst hok
    all_goals simp_all [hasAccountsMap, accountsMapOf, lookupKey_setKey_self]
  · intro s email now s' hok
    unfold incrementDraftCount at hok
    repeat' split at hok
    all_goals simp at hok
    all_goals try subst hok
    all_goals simp_all [hasAccountsMap, accountsMapOf, lookupKey_setKey_self]
  · intro s email hs
    obtain ⟨fs, afs, rfl, hacc⟩ := hdestruct s hs
    unfold getAccountState
    dsimp only
    rw [hacc]
    exact ⟨_, rfl⟩
  · intro s hs
    obtain ⟨fs, afs, rfl, hacc⟩ := hdestruct s hs
    unfold getAllAccounts
    dsimp only
    rw [hacc]
    exact ⟨_, rfl⟩
  · intro s hs
    obtain ⟨fs, afs, rfl, hacc⟩ := hdestruct s hs
    unfold getStats
    dsimp only
    rw [hacc]
    exact ⟨_, rfl⟩

/-- Witness for C9 (amended): the default state has the accounts map, a
fresh-account update succeeds and preserves it, and a no-op increment
(unknown account) preserves it. -/
theorem syncState_accounts_invariant_witness :
    hasAccountsMap DEFAULT_STATE = true ∧
    (∃ s', updateAccountState DEFAULT_STATE "a@b" [] "2026-01-01" = .ok s' ∧
      hasAccountsMap s' = true) ∧
    (incrementStats DEFAULT_STATE "a@b" 1 2 "2026-01-01" = .ok DEFAULT_STATE →
      hasAccountsMap DEFAULT_STATE = hasAccountsMap DEFAULT_STATE) ∧
    (∃ r, getAccountState DEFAULT_STATE "a@b" = .ok r) ∧
    (∃ ks, getAllAccounts DEFAULT_STATE = .ok ks) ∧
    (∃ st, getStats DEFAULT_STATE = .ok st) :=
  ⟨rfl,
    syncState_accounts_invariant.2.1 DEFAULT_STATE "a@b" [] "2026-01-01" rfl,
    syncState_accounts_invariant.2.2.1 DEFAULT_STATE "a@b" 1 2 "2026-01-01" DEFAULT_STATE,
    syncState_accounts_invariant.2.2.2.2.2.1 DEFAULT_STATE "a@b" rfl,
    syncState_accounts_invariant.2.2.2.2.2.2.1 DEFAULT_STATE rfl,
    syncState_accounts_invariant.2.2.2.2.2.2.2.1 DEFAULT_STATE rfl⟩

/-- **C10**: when the account record exists, `updateAccountState` stores
`{...existing, ...updates, lastSyncDate: now}`: the stored record's
`lastSyncDate` is the wall-clock time `now` of the call — unconditionally,
so a caller-supplied `lastSyncDate` in `updates` is silently discarded —
while every other field of the existing record absent from `updates` is
unchanged. -/
theorem updateAccountState_lastSync (fs afs efs updates : List (String × Json))
    (email now : String)
    (hacc : lookupKey fs "accounts" = some (.obj afs))
    (hrec : lookupKey afs email = some (.obj efs)) :
    ∃ newRec : List (String × Json),
      updateAccountState (.obj fs) email updates now =
        .ok (.obj (setKey fs "accounts" (.obj (setKey afs email (.obj newRec))))) ∧
      getAccountState (.obj (setKey fs "accounts" (.obj (setKey afs email (.obj newRec))))) email =
        .ok (some (.obj newRec)) ∧
      lookupKey newRec "lastSyncDate" = some (.str now) ∧
      (∀ k, k ≠ "lastSyncDate" → lookupKey updates k = none →
        lookupKey newRec k = lookupKey efs k) := by
  refine ⟨setKey (spreadObj efs updates) "lastSyncDate" (.str now), ?_, ?_, ?_, ?_⟩
  · unfold updateAccountState
    dsimp only
    simp only [hacc, hrec]
  · unfold getAccountState
    dsimp only
    rw [lookupKey_setKey_self]
    dsimp only
    rw [lookupKey_setKey_self]
  · exact lookupKey_setKey_self _ _ _
  · intro k hk hupd
    rw [lookupKey_setKey_ne _ _ _ _ hk, lookupKey_spreadObj_none _ _ _ hupd]

/-- Witness for C10: a concrete state with one account; the updates supply
a `lastSyncDate` of `"HACK"`, which is discarded in favour of `"NOW"`,
while `totalFetched` (absent from the updates) is unchanged. -/
theorem updateAccountState_lastSync_witness :
    lookupKey [("accounts",
        Json.obj [("a@b", Json.obj [("lastSyncDate", Json.str "old"), ("totalFetched", Json.num 7)])])]
      "accounts" =
      some (Json.obj [("a@b", Json.obj [("lastSyncDate", Json.str "old"), ("totalFetched", Json.num 7)])]) ∧
    lookupKey [("a@b", Json.obj [("lastSyncDate", Json.str "old"), ("totalFetched", Json.num 7)])] "a@b" =
      some (Json.obj [("lastSyncDate", Json.str "old"), ("totalFetched", Json.num 7)]) ∧
    ∃ newRec : List (String × Json),
      updateAccountState
          (.obj [("accounts",
            Json.obj [("a@b", Json.obj [("lastSyncDate", Json.str "old"), ("totalFetched", Json.num 7)])])])
          "a@b" [("lastSyncDate", Json.str "HACK"), ("emailsSent", Json.num 3)] "NOW" =
        .ok (.obj (setKey [("accounts",
            Json.obj [("a@b", Json.obj [("lastSyncDate", Json.str "old"), ("totalFetched", Json.num 7)])])]
          "accounts"
          (.obj (setKey [("a@b", Json.obj [("lastSyncDate", Json.str "old"), ("totalFetched", Json.num 7)])]
            "a@b" (.obj newRec))))) ∧
      getAccountState (.obj (setKey [("accounts",
            Json.obj [("a@b", Json.obj [("lastSyncDate", Json.str "old"), ("totalFetched", Json.num 7)])])]
          "accounts"
          (.obj (setKey [("a@b", Json.obj [("lastSyncDate", Json.str "old"), ("totalFetched", Json.num 7)])]
            "a@b" (.obj newRec))))) "a@b" = .ok (some (.obj newRec)) ∧
      lookupKey newRec "lastSyncDate" = some (Json.str "NOW") ∧
      (∀ k, k ≠ "lastSyncDate" →
        lookupKey [("lastSyncDate", Json.str "HACK"), ("emailsSent", Json.num 3)] k = none →
        lookupKey newRec k =
          lookupKey [("lastSyncDate", Json.str "old"), ("totalFetched", Json.num 7)] k) :=
  ⟨rfl, rfl, updateAccountState_lastSync _ _ _ _ "a@b" "NOW" rfl rfl⟩
